import Mathlib

/-!
Verification of the streaming chat-completion adapter in
`src/services/chat.js` (Cerebr). The JavaScript is shallowly embedded:
pure helpers become Lean functions, the stateful SSE read loop becomes an
explicit state machine over a list of timed events, machine integers are
`Nat`, and JavaScript dynamic values are typed at exactly the fields the
code reads. `Date.now()` is modelled as a monotone `Nat` clock in
milliseconds attached to each event; two events may share a timestamp,
as two calls of `Date.now()` may return the same millisecond.
String primitives (`toLowerCase`, `trimStart`, `trim`, `split`,
`startsWith`) are modelled on `List Char` so that every definition
evaluates by kernel reduction; the models cover the ASCII behaviour the
adapter relies on.
-/

/-! ## JavaScript string primitives -/

/-- JavaScript truthiness of a string-valued field that may be absent:
`undefined` and the empty string are falsy. -/
def jsTruthy : Option String → Bool
  | none => false
  | some s => !s.isEmpty

/-- JavaScript `String.prototype.startsWith` for literal arguments. -/
def jsStartsWith (s pre : String) : Bool :=
  pre.toList.isPrefixOf s.toList

/-- JavaScript `String.prototype.toLowerCase` (ASCII case mapping). -/
def jsToLower (s : String) : String :=
  String.mk (s.toList.map Char.toLower)

/-- JavaScript `String.prototype.trimStart`. -/
def jsTrimStart (s : String) : String :=
  String.mk (s.toList.dropWhile Char.isWhitespace)

/-- JavaScript `String.prototype.trim`. -/
def jsTrim (s : String) : String :=
  String.mk (((s.toList.dropWhile Char.isWhitespace).reverse.dropWhile
    Char.isWhitespace).reverse)

/-- Split a character list at every comma, keeping empty segments, as
JavaScript `split(',')` does. -/
def splitCommaChars : List Char → List (List Char)
  | [] => [[]]
  | c :: rest =>
    let r := splitCommaChars rest
    if c = ',' then [] :: r
    else
      match r with
      | s :: ss => (c :: s) :: ss
      | [] => [[c]]

/-- JavaScript `dataUrl.split(',')`. -/
def jsSplitComma (s : String) : List String :=
  (splitCommaChars s.toList).map String.mk

/-- JavaScript `array.join(sep)` (also the blank-line join the spec
describes for system prompts). -/
def joinSep (sep : String) : List String → String
  | [] => ""
  | [s] => s
  | s :: rest => s ++ sep ++ joinSep sep rest

/-! ## Provider profile resolution (`detectApiFormat`, chat.js 43-66) -/

/-- Whether `sub` occurs contiguously in a character list. -/
def containsSub (sub : List Char) : List Char → Bool
  | [] => sub.isEmpty
  | c :: rest => sub.isPrefixOf (c :: rest) || containsSub sub rest

/-- `s.toLowerCase().includes(sub)` on the base URL. -/
def urlIncludes (s sub : String) : Bool :=
  containsSub sub.toList (jsToLower s).toList

/-- Embeds `detectApiFormat(baseUrl, explicitFormat)` (chat.js 43-66):
an explicit format that is one of the three known values wins, otherwise
the lower-cased URL is inspected for gemini markers, then claude markers,
and everything else defaults to openai. `none` models an `undefined`
argument. -/
def detectApiFormat (baseUrl : String) (explicitFormat : Option String) : String :=
  if jsTruthy explicitFormat
      && ["openai", "gemini", "claude"].contains (explicitFormat.getD "") then
    explicitFormat.getD ""
  else
    if urlIncludes baseUrl "generativelanguage.googleapis.com"
        || urlIncludes baseUrl "aiplatform.googleapis.com"
        || urlIncludes baseUrl "gemini" then
      "gemini"
    else if urlIncludes baseUrl "anthropic.com"
        || urlIncludes baseUrl "claude"
        || urlIncludes baseUrl "api.anthropic" then
      "claude"
    else
      "openai"

/-- Written from the spec's words (4.1): explicit format returned verbatim
when it is one of the three known values; otherwise gemini substrings,
then claude substrings, else openai. Compared with `detectApiFormat`. -/
def specResolveProfile (baseUrl : String) (explicitFormat : Option String) : String :=
  match explicitFormat with
  | some f =>
    if f = "openai" ∨ f = "gemini" ∨ f = "claude" then f
    else
      if urlIncludes baseUrl "generativelanguage.googleapis.com"
          || urlIncludes baseUrl "aiplatform.googleapis.com"
          || urlIncludes baseUrl "gemini" then "gemini"
      else if urlIncludes baseUrl "anthropic.com"
          || urlIncludes baseUrl "claude"
          || urlIncludes baseUrl "api.anthropic" then "claude"
      else "openai"
  | none =>
    if urlIncludes baseUrl "generativelanguage.googleapis.com"
        || urlIncludes baseUrl "aiplatform.googleapis.com"
        || urlIncludes baseUrl "gemini" then "gemini"
    else if urlIncludes baseUrl "anthropic.com"
        || urlIncludes baseUrl "claude"
        || urlIncludes baseUrl "api.anthropic" then "claude"
    else "openai"

/-! ## The common message model (chat.js typedefs) -/

/-- One element of an array-valued message content: the fields the two
converters read. `text` items carry the string the code forwards;
`image` items carry `item.image_url?.url` (`none` models a missing
`image_url` or `url`); `other` covers every other `type` tag. -/
inductive ContentItem where
  | text (text : String)
  | image (url : Option String)
  | other
deriving DecidableEq, Repr

/-- `msg.content`: a string or an ordered list of parts. -/
inductive MsgContent where
  | str (s : String)
  | arr (items : List ContentItem)
deriving DecidableEq, Repr

/-- A message as the converters see it (after transient fields are
stripped). -/
structure Msg where
  role : String
  content : MsgContent
deriving DecidableEq, Repr

/-! ## Data-URI handling shared by the two multimodal converters -/

/-- `const [header, base64] = dataUrl.split(',')`: the first field. -/
def dataUrlHeader (dataUrl : String) : String :=
  (jsSplitComma dataUrl).headD ""

/-- `const [header, base64] = dataUrl.split(',')`: the second field,
`none` when the URL has no comma (JavaScript `undefined`). -/
def dataUrlPayload (dataUrl : String) : Option String :=
  (jsSplitComma dataUrl).drop 1 |>.head?

/-- First match of the regular expression `data:([^;]+)` over a string,
returning the capture: at each position, the literal `data:` followed by
at least one non-semicolon character matches and captures the maximal
semicolon-free run; otherwise the scan advances one character. -/
def findDataMime : List Char → Option String
  | [] => none
  | c :: rest =>
    if ("data:".toList).isPrefixOf (c :: rest) then
      let captured := ((c :: rest).drop 5).takeWhile (fun ch => ch ≠ ';')
      if captured.isEmpty then findDataMime rest else some (String.mk captured)
    else findDataMime rest

/-- `header.match(/data:([^;]+)/)?.[1] || 'image/png'` (chat.js 97, 143). -/
def extractMimeType (header : String) : String :=
  match findDataMime header.toList with
  | some m => if m = "" then "image/png" else m
  | none => "image/png"

/-- Written from the claim's words: the payload of a data URL read as
everything after the first comma. Compared with `dataUrlPayload`. -/
def afterFirstCommaChars : List Char → List Char
  | [] => []
  | c :: rest => if c = ',' then rest else afterFirstCommaChars rest

/-- The claim-side payload of a data URL: the text after the first comma. -/
def afterFirstComma (s : String) : String :=
  String.mk (afterFirstCommaChars s.toList)

/-! ## Gemini converter (`convertToGeminiFormat`, chat.js 73-115) -/

/-- A Gemini request part: `{text}` or `{inline_data:{mime_type,data}}`. -/
inductive GeminiPart where
  | text (text : String)
  | inlineData (mimeType : String) (data : Option String)
deriving DecidableEq, Repr

structure GeminiContent where
  role : String
  parts : List GeminiPart
deriving DecidableEq, Repr

structure SystemInstruction where
  parts : List GeminiPart
deriving DecidableEq, Repr

structure GeminiRequest where
  contents : List GeminiContent
  systemInstruction : Option SystemInstruction
deriving DecidableEq, Repr

/-- The parts one array item contributes in the Gemini converter
(chat.js 89-106): text items map directly; image items with a truthy URL
starting with `data:` are split on commas, the mime type extracted from
the first field, the second field emitted as inline base64 data; every
other image item and item kind contributes nothing. -/
def geminiItemParts : ContentItem → List GeminiPart
  | .text t => [.text t]
  | .image u =>
    if jsTruthy u then
      let dataUrl := u.getD ""
      if jsStartsWith dataUrl "data:" then
        [.inlineData (extractMimeType (dataUrlHeader dataUrl)) (dataUrlPayload dataUrl)]
      else []
    else []
  | .other => []

/-- The parts list built for one message's content (chat.js 86-107). -/
def geminiContentParts : MsgContent → List GeminiPart
  | .str s => [.text s]
  | .arr items => items.flatMap geminiItemParts

/-! JSON.stringify over the modelled message fields, used when a system
message carries non-string content (chat.js 79, 128). The model
serializes exactly the fields `ContentItem` carries. -/

def hexDigitChar (n : Nat) : Char :=
  if n < 10 then Char.ofNat (48 + n) else Char.ofNat (87 + n)

def jsonEscapeChar (c : Char) : String :=
  if c = '"' then "\\\""
  else if c = '\\' then "\\\\"
  else if c = '\x08' then "\\b"
  else if c = '\x0c' then "\\f"
  else if c = '\n' then "\\n"
  else if c = '\r' then "\\r"
  else if c = '\t' then "\\t"
  else if c.toNat < 0x20 then
    "\\u00" ++ String.mk [hexDigitChar (c.toNat / 16), hexDigitChar (c.toNat % 16)]
  else String.singleton c

def jsonQuote (s : String) : String :=
  "\"" ++ String.join (s.toList.map jsonEscapeChar) ++ "\""

def jsonOfItem : ContentItem → String
  | .text t => "\x7b\"type\":\"text\",\"text\":" ++ jsonQuote t ++ "\x7d"
  | .image (some u) =>
    "\x7b\"type\":\"image_url\",\"image_url\":\x7b\"url\":" ++ jsonQuote u ++ "\x7d\x7d"
  | .image none => "\x7b\"type\":\"image_url\"\x7d"
  | .other => "\x7b\x7d"

def jsonStringifyItems (items : List ContentItem) : String :=
  "[" ++ joinSep "," (items.map jsonOfItem) ++ "]"

/-- `typeof content === 'string' ? content : JSON.stringify(content)`
(chat.js 79 and 128). -/
def contentAsSystemText : MsgContent → String
  | .str s => s
  | .arr items => jsonStringifyItems items

/-- The loop of `convertToGeminiFormat` (chat.js 77-112) with its two
accumulators: built contents (pushed at the tail) and the current
`systemInstruction`, which each system message overwrites. -/
def convertToGeminiFormatLoop :
    List Msg → List GeminiContent → Option SystemInstruction → GeminiRequest
  | [], contents, systemInstruction =>
    { contents := contents, systemInstruction := systemInstruction }
  | msg :: rest, contents, systemInstruction =>
    if msg.role = "system" then
      convertToGeminiFormatLoop rest contents
        (some { parts := [.text (contentAsSystemText msg.content)] })
    else
      let role := if msg.role = "assistant" then "model" else "user"
      let parts := geminiContentParts msg.content
      if parts.length > 0 then
        convertToGeminiFormatLoop rest (contents ++ [{ role := role, parts := parts }])
          systemInstruction
      else
        convertToGeminiFormatLoop rest contents systemInstruction

/-- Embeds `convertToGeminiFormat(messages)` (chat.js 73-115). -/
def convertToGeminiFormat (messages : List Msg) : GeminiRequest :=
  convertToGeminiFormatLoop messages [] none

/-- Written from the spec's words (4.2, gemini): system messages removed,
`assistant` renamed to `model` and every other non-system role to `user`,
content converted to parts, zero-part messages dropped. -/
def geminiSpecContents : List Msg → List GeminiContent
  | [] => []
  | m :: rest =>
    if m.role = "system" then geminiSpecContents rest
    else
      let parts := geminiContentParts m.content
      if parts.isEmpty then geminiSpecContents rest
      else
        { role := if m.role = "assistant" then "model" else "user",
          parts := parts } :: geminiSpecContents rest

/-- Written from the claim's words (C10): the content of the last
system-role message, if any. -/
def lastSystemText : List Msg → Option String
  | [] => none
  | m :: rest =>
    match lastSystemText rest with
    | some s => some s
    | none => if m.role = "system" then some (contentAsSystemText m.content) else none

/-! ## Claude converter (`convertToClaudeFormat`, chat.js 122-163) -/

/-- A Claude content part: `{type:'text',text}` or
`{type:'image',source:{type:'base64',media_type,data}}`. -/
inductive ClaudePart where
  | text (text : String)
  | image (mediaType : String) (data : Option String)
deriving DecidableEq, Repr

structure ClaudeMsg where
  role : String
  content : List ClaudePart
deriving DecidableEq, Repr

structure ClaudeRequest where
  messages : List ClaudeMsg
  system : String
deriving DecidableEq, Repr

/-- The parts one array item contributes in the Claude converter
(chat.js 136-154), mirroring `geminiItemParts`. -/
def claudeItemParts : ContentItem → List ClaudePart
  | .text t => [.text t]
  | .image u =>
    if jsTruthy u then
      let dataUrl := u.getD ""
      if jsStartsWith dataUrl "data:" then
        [.image (extractMimeType (dataUrlHeader dataUrl)) (dataUrlPayload dataUrl)]
      else []
    else []
  | .other => []

/-- The content list built for one message (chat.js 132-155). -/
def claudeContentParts : MsgContent → List ClaudePart
  | .str s => [.text s]
  | .arr items => items.flatMap claudeItemParts

/-- The loop of `convertToClaudeFormat` (chat.js 126-160): system-role
contents folded into one string with `system += (system ? '\n\n' : '') + c`,
every other message kept with its original role, dropped when its
converted content is empty. -/
def convertToClaudeFormatLoop : List Msg → List ClaudeMsg → String → ClaudeRequest
  | [], acc, system => { messages := acc, system := system }
  | msg :: rest, acc, system =>
    if msg.role = "system" then
      convertToClaudeFormatLoop rest acc
        (system ++ (if system ≠ "" then "\n\n" else "") ++ contentAsSystemText msg.content)
    else
      let content := claudeContentParts msg.content
      if content.length > 0 then
        convertToClaudeFormatLoop rest (acc ++ [{ role := msg.role, content := content }])
          system
      else
        convertToClaudeFormatLoop rest acc system

/-- Embeds `convertToClaudeFormat(messages)` (chat.js 122-163). -/
def convertToClaudeFormat (messages : List Msg) : ClaudeRequest :=
  convertToClaudeFormatLoop messages [] ""

/-- The system-role contents of a message list, in encounter order,
serialized as the converter serializes them. -/
def systemTexts : List Msg → List String
  | [] => []
  | m :: rest =>
    if m.role = "system" then contentAsSystemText m.content :: systemTexts rest
    else systemTexts rest

/-- The accumulator fold the Claude converter applies to the system
contents, isolated for reasoning. -/
def claudeSystemFold : String → List String → String
  | system, [] => system
  | system, c :: rest =>
    claudeSystemFold (system ++ (if system ≠ "" then "\n\n" else "") ++ c) rest

/-- Written from the spec's words (4.2, claude): non-system messages kept
with their original role, content converted to typed parts, dropped when
the conversion yields empty content. -/
def claudeSpecMessages : List Msg → List ClaudeMsg
  | [] => []
  | m :: rest =>
    if m.role = "system" then claudeSpecMessages rest
    else
      let content := claudeContentParts m.content
      if content.isEmpty then claudeSpecMessages rest
      else { role := m.role, content := content } :: claudeSpecMessages rest

/-! ## System-prompt composition (`callAPI`, chat.js 186-213)

`systemPrompt.replace(/\x7b\x7buserLanguage\x7d\x7d/gm, userLanguage)` is a
JavaScript `String.prototype.replace` with a global literal pattern: the
subject is scanned left to right for non-overlapping occurrences, and each
occurrence is substituted by the replacement string with ECMAScript
GetSubstitution escapes interpreted: `$$` a dollar, `$&` the matched text,
a dollar before a backquote the text before the match, `$'` the text after
the match; any other dollar stays literal. -/

/-- ECMAScript GetSubstitution over the replacement's characters. -/
def jsGetSubstitution (matched before after : List Char) : List Char → List Char
  | [] => []
  | [c] => [c]
  | c :: d :: rest2 =>
    if c = '$' then
      if d = '$' then '$' :: jsGetSubstitution matched before after rest2
      else if d = '&' then matched ++ jsGetSubstitution matched before after rest2
      else if d = '\x60' then before ++ jsGetSubstitution matched before after rest2
      else if d = '\x27' then after ++ jsGetSubstitution matched before after rest2
      else c :: jsGetSubstitution matched before after (d :: rest2)
    else c :: jsGetSubstitution matched before after (d :: rest2)

/-- The global-replace scan. `fuel` bounds the recursion; every step
consumes at least one subject character, so `fuel = subject length`
suffices. `before` is the subject text already scanned. -/
def jsReplaceScan (pat rep : List Char) : Nat → List Char → List Char → List Char
  | 0, _, _ => []
  | _ + 1, _, [] => []
  | fuel + 1, before, c :: rest =>
    if pat.isPrefixOf (c :: rest) then
      let after := (c :: rest).drop pat.length
      jsGetSubstitution pat before after rep ++
        jsReplaceScan pat rep fuel (before ++ pat) after
    else
      c :: jsReplaceScan pat rep fuel (before ++ [c]) rest

/-- Embeds `systemPrompt.replace(/\x7b\x7buserLanguage\x7d\x7d/gm, userLanguage)`
(chat.js 187). -/
def jsReplaceUserLanguage (s userLanguage : String) : String :=
  let pat := "\x7b\x7buserLanguage\x7d\x7d".toList
  String.mk (jsReplaceScan pat userLanguage.toList s.toList.length [] s.toList)

/-- The literal-replacement scan, written from the claim's words: every
occurrence of the pattern replaced by the replacement verbatim. -/
def literalReplaceScan (pat rep : List Char) : Nat → List Char → List Char
  | 0, _ => []
  | _ + 1, [] => []
  | fuel + 1, c :: rest =>
    if pat.isPrefixOf (c :: rest) then
      rep ++ literalReplaceScan pat rep fuel ((c :: rest).drop pat.length)
    else
      c :: literalReplaceScan pat rep fuel rest

/-- Claim-side replacement: every occurrence of the user-language
placeholder replaced by the language tag itself. -/
def literalReplaceUserLanguage (s userLanguage : String) : String :=
  let pat := "\x7b\x7buserLanguage\x7d\x7d".toList
  String.mk (literalReplaceScan pat userLanguage.toList s.toList.length s.toList)

/-- One webpage context entry (`webpageInfo.pages[i]`). -/
structure Page where
  title : String
  url : String
  content : String
  isCurrent : Bool
deriving DecidableEq, Repr

/-- The labeled block one page renders to (chat.js 193-199). `t` is the
external localized-string lookup, passed in as a function. -/
def renderPage (t : String → String) (page : Page) : String :=
  let px := if page.isCurrent then t "webpage_prefix_current" else t "webpage_prefix_other"
  "\n" ++ px ++ ":\n" ++ t "webpage_title_label" ++ ": " ++ page.title ++ "\n"
    ++ t "webpage_url_label" ++ ": " ++ page.url ++ "\n"
    ++ t "webpage_content_label" ++ ": " ++ page.content

/-- The composed system-message content (chat.js 186-202): the configured
prompt with the user-language placeholder substituted, then the rendered
webpage blocks joined by the visible separator. `none` models a missing
`webpageInfo` or `webpageInfo.pages`. -/
def composeSystemContent (t : String → String) (systemPromptRaw : Option String)
    (userLanguage : String) (webpages : Option (List Page)) : String :=
  let systemPrompt := jsReplaceUserLanguage (systemPromptRaw.getD "") userLanguage
  systemPrompt ++
    (match webpages with
     | some pages => joinSep "\n\n---\n" (pages.map (renderPage t))
     | none => "")

/-- A caller-supplied message before the transient fields are stripped
(chat.js 206-209). -/
structure InputMsg where
  role : String
  content : MsgContent
  reasoning_content : Option String
  updating : Bool
deriving DecidableEq, Repr

/-- `const \x7b reasoning_content, updating, ...rest \x7d = msg` (chat.js 207). -/
def stripMsg (m : InputMsg) : Msg :=
  { role := m.role, content := m.content }

/-- Embeds the message-preparation step of `callAPI` (chat.js 186-213):
strip transient fields, then prepend the composed system message when its
trimmed content is non-empty and the list does not already start with a
system message. -/
def prepareMessages (t : String → String) (systemPromptRaw : Option String)
    (userLanguage : String) (webpages : Option (List Page))
    (messages : List InputMsg) : List Msg :=
  let systemMessage : Msg :=
    { role := "system",
      content := .str (composeSystemContent t systemPromptRaw userLanguage webpages) }
  let processedMessages := messages.map stripMsg
  let headNotSystem : Bool :=
    match processedMessages with
    | [] => true
    | m :: _ => m.role ≠ "system"
  if jsTrim (composeSystemContent t systemPromptRaw userLanguage webpages) ≠ ""
      && headNotSystem then
    systemMessage :: processedMessages
  else
    processedMessages

/-! ## The SSE stream decoder (`processStream`, chat.js 305-466)

The read loop is modelled at data-line granularity over a list of timed
events. A parsed record is typed at exactly the fields the loop reads;
`JSON.parse` failure is an event of its own (the parse either throws or
yields a record). Scheduled `setTimeout(dispatchUpdate, …)` callbacks
appear as explicit timer-fire events, since they run between chunk reads. -/

/-- The accumulated message (`currentMessage`, chat.js 322-325). -/
structure AccMsg where
  content : String
  reasoning_content : String
deriving DecidableEq, Repr

/-- A parsed SSE record, typed at the fields chat.js 386-416 reads:
`choices?.[0]?.delta?.content` and `…?.reasoning_content` for openai,
the texts of `candidates[0]?.content?.parts` for gemini (`none` when the
chain is absent), `type`, `delta?.text` and the truthiness of
`delta?.stop_reason` for claude. `none` models an absent field. -/
structure ParsedRecord where
  choicesDeltaContent : Option String
  choicesDeltaReasoning : Option String
  candidatesParts : Option (List (Option String))
  ptype : Option String
  deltaText : Option String
  deltaStopReason : Bool
deriving DecidableEq, Repr

/-- The payload of one `data: ` line: `JSON.parse` threw, or produced a
record. -/
inductive SSEData where
  | parseFail
  | record (p : ParsedRecord)
deriving DecidableEq, Repr

/-- One line extracted from the byte stream: a line without the
`data: ` marker (ignored), the `[DONE]` sentinel (ignored), or a data
line with its payload. -/
inductive SSELine where
  | nonData
  | doneMark
  | dataLine (d : SSEData)
deriving DecidableEq, Repr

/-- One event the read loop observes: a line becoming available at a
clock time, or a scheduled flush timer firing. -/
inductive StreamEvent where
  | line (time : Nat) (l : SSELine)
  | timerFire (time : Nat)
deriving DecidableEq, Repr

/-- The options object of `callAPI` (chat.js 329-338). -/
structure CallOptions where
  detectMisfiledThinkSilently : Bool
  misfiledThinkSilentlyMarker : Option String
  misfiledThinkSilentlyMarkers : Option (List String)
deriving DecidableEq, Repr

/-- JavaScript `Set` insertion-order deduplication: first occurrence kept.
The fuel bounds the recursion; each step consumes one element and filtering
never grows the list, so the list's length suffices. -/
def uniqueFirstAux : Nat → List String → List String
  | 0, _ => []
  | _ + 1, [] => []
  | fuel + 1, x :: rest => x :: uniqueFirstAux fuel (rest.filter (fun y => y ≠ x))

/-- JavaScript `Set` insertion-order deduplication. -/
def uniqueFirst (l : List String) : List String :=
  uniqueFirstAux l.length l

/-- Embeds the guard-prefix normalization (chat.js 330-338): the list
option when it is a non-empty array, else the single option defaulting to
`"think"`; each entry trimmed and lower-cased, empties dropped, first
occurrences kept. -/
def computeMisfiledMarkers (opts : CallOptions) : List String :=
  let raw :=
    match opts.misfiledThinkSilentlyMarkers with
    | some l => if l.length > 0 then l else [opts.misfiledThinkSilentlyMarker.getD "think"]
    | none => [opts.misfiledThinkSilentlyMarker.getD "think"]
  uniqueFirst ((raw.map (fun p => jsToLower (jsTrim p))).filter (fun p => p ≠ ""))

/-- The per-stream configuration `processStream` closes over: the resolved
API format, whether `chatManager && chatId` are truthy, and the guard
configuration. -/
structure StreamConfig where
  apiFormat : String
  chatPresent : Bool
  detectMisfiledThinkSilently : Bool
  misfiledMarkers : List String
deriving DecidableEq, Repr

/-- `UPDATE_INTERVAL` (chat.js 328). -/
def UPDATE_INTERVAL : Nat := 100

/-- The mutable state of one in-flight stream, together with the log of
snapshots dispatched to the store/UI (most recent last). -/
structure StreamState where
  currentMessage : AccMsg
  lastUpdateTime : Nat
  updateTimeoutPending : Bool
  didDispatchAnyUpdate : Bool
  dispatched : List AccMsg
deriving DecidableEq, Repr

/-- The state at the top of `processStream` (chat.js 321-339). -/
def initState : StreamState :=
  { currentMessage := { content := "", reasoning_content := "" },
    lastUpdateTime := 0,
    updateTimeoutPending := false,
    didDispatchAnyUpdate := false,
    dispatched := [] }

/-- Embeds `dispatchUpdate` (chat.js 341-354): when the store and chat id
are present, push an independent copy of the accumulator to the store and
the UI callback, record the flush time and that a dispatch happened; in
every case clear any pending flush timer. -/
def dispatchUpdate (cfg : StreamConfig) (now : Nat) (st : StreamState) : StreamState :=
  let st1 :=
    if cfg.chatPresent then
      { st with dispatched := st.dispatched ++ [st.currentMessage],
                lastUpdateTime := now,
                didDispatchAnyUpdate := true }
    else st
  { st1 with updateTimeoutPending := false }

/-- Embeds the throttle (chat.js 433-441): with no timer pending, flush
immediately when the interval has elapsed since the last flush, otherwise
schedule a flush; with a timer pending, do nothing. -/
def throttleDispatch (cfg : StreamConfig) (now : Nat) (st : StreamState) : StreamState :=
  if !st.updateTimeoutPending then
    if now - st.lastUpdateTime > UPDATE_INTERVAL then dispatchUpdate cfg now st
    else { st with updateTimeoutPending := true }
  else st

/-- Embeds the per-format delta extraction (chat.js 386-416), returning
the grown accumulator and `hasUpdate`. -/
def extractDelta (apiFormat : String) (parsed : ParsedRecord) (msg : AccMsg) :
    AccMsg × Bool :=
  if apiFormat = "gemini" then
    match parsed.candidatesParts with
    | some parts =>
      parts.foldl
        (fun acc pt =>
          if jsTruthy pt then
            ({ acc.1 with content := acc.1.content ++ pt.getD "" }, true)
          else acc)
        (msg, false)
    | none => (msg, false)
  else if apiFormat = "claude" then
    if parsed.ptype == some "content_block_delta" && jsTruthy parsed.deltaText then
      ({ msg with content := msg.content ++ parsed.deltaText.getD "" }, true)
    else (msg, false)
  else
    let r1 :=
      if jsTruthy parsed.choicesDeltaContent then
        ({ msg with content := msg.content ++ parsed.choicesDeltaContent.getD "" }, true)
      else (msg, false)
    if jsTruthy parsed.choicesDeltaReasoning then
      ({ r1.1 with
          reasoning_content := r1.1.reasoning_content ++ parsed.choicesDeltaReasoning.getD "" },
        true)
    else r1

/-- What processing one data payload can throw. `guardError` is the error
carrying the code `CEREBR_MISFILED_THINK_SILENTLY` (chat.js 422-424);
`parseError` is a `JSON.parse` failure. -/
inductive LineError where
  | parseError
  | guardError
deriving DecidableEq, Repr

/-- The result of the `try` block for one data line: a new state, or an
error thrown with the state at the moment of the throw. -/
inductive LineOutcome where
  | ok (st : StreamState)
  | thrown (e : LineError) (st : StreamState)
deriving DecidableEq, Repr

/-- Embeds the `try` block for one data line (chat.js 381-442): parse,
extract the delta, then (before the first dispatched update, with the
guard enabled and no reasoning content) either abort on a full prefix
match of the normalized content, suppress a still-ambiguous strict
prefix, or fall through to the throttled dispatch. -/
def tryProcessData (cfg : StreamConfig) (now : Nat) (d : SSEData)
    (st : StreamState) : LineOutcome :=
  match d with
  | .parseFail => .thrown .parseError st
  | .record parsed =>
    let r := extractDelta cfg.apiFormat parsed st.currentMessage
    let st1 := { st with currentMessage := r.1 }
    if r.2 then
      if cfg.detectMisfiledThinkSilently && !st1.didDispatchAnyUpdate
          && (r.1.reasoning_content == "") then
        let contentStart := jsToLower (jsTrimStart r.1.content)
        if cfg.misfiledMarkers.any (fun p => jsStartsWith contentStart p) then
          .thrown .guardError st1
        else if cfg.misfiledMarkers.any (fun p => jsStartsWith p contentStart) then
          .ok st1
        else .ok (throttleDispatch cfg now st1)
      else .ok (throttleDispatch cfg now st1)
    else .ok st1

/-- Embeds one line of the loop with its `catch` (chat.js 375-449): lines
without the data marker and the `[DONE]` sentinel are ignored; a thrown
error whose code is `CEREBR_MISFILED_THINK_SILENTLY` is rethrown, any
other is logged and the loop continues. The error value carries the
state at the throw. -/
def processLine (cfg : StreamConfig) (now : Nat) (l : SSELine) (st : StreamState) :
    Except StreamState StreamState :=
  match l with
  | .nonData => .ok st
  | .doneMark => .ok st
  | .dataLine d =>
    match tryProcessData cfg now d st with
    | .ok st1 => .ok st1
    | .thrown .guardError st1 => .error st1
    | .thrown .parseError _ => .ok st

/-- One observable event: a line, or a pending flush timer firing (a
cleared timer never fires). -/
def processEvent (cfg : StreamConfig) (e : StreamEvent) (st : StreamState) :
    Except StreamState StreamState :=
  match e with
  | .line now l => processLine cfg now l st
  | .timerFire now =>
    .ok (if st.updateTimeoutPending then dispatchUpdate cfg now st else st)

/-- The read loop over a list of events, stopping at the first propagated
error; the Bool is true when the guard aborted the stream. -/
def runEvents (cfg : StreamConfig) : List StreamEvent → StreamState → StreamState × Bool
  | [], st => (st, false)
  | e :: rest, st =>
    match processEvent cfg e st with
    | .ok st1 => runEvents cfg rest st1
    | .error st1 => (st1, true)

/-- Embeds the end-of-stream branch (chat.js 358-364): force one last
flush when any clock time has elapsed since the previous flush. -/
def finishStream (cfg : StreamConfig) (tdone : Nat) (st : StreamState) : StreamState :=
  if tdone - st.lastUpdateTime > 0 then dispatchUpdate cfg tdone st else st

/-- How one call of `processStream` settles: resolves with the final
accumulator, resolves with no value (`undefined`) after an `AbortError`,
or rejects with the guard's distinguishable error. -/
inductive StreamOutcome where
  | result (msg : AccMsg)
  | cancelled
  | guardAborted
deriving DecidableEq, Repr

/-- What the network produced for one call: the stream reached
end-of-stream after the given events, or cancellation raised `AbortError`
after them (`abortedAfter []` is cancellation before the first byte). -/
inductive StreamInput where
  | chunks (events : List StreamEvent) (tdone : Nat)
  | abortedAfter (events : List StreamEvent)
deriving DecidableEq, Repr

/-- Embeds `processStream` (chat.js 305-466) over one stream input:
its outcome and the full log of snapshots dispatched to the store/UI.
A guard abort is rethrown past the `AbortError` check (chat.js 454-458);
an `AbortError` is caught and the call resolves with no value. -/
def processStream (cfg : StreamConfig) : StreamInput → StreamOutcome × List AccMsg
  | .chunks evs tdone =>
    match runEvents cfg evs initState with
    | (st, true) => (.guardAborted, st.dispatched)
    | (st, false) =>
      let st1 := finishStream cfg tdone st
      (.result st1.currentMessage, st1.dispatched)
  | .abortedAfter evs =>
    match runEvents cfg evs initState with
    | (st, true) => (.guardAborted, st.dispatched)
    | (st, false) => (.cancelled, st.dispatched)

/-! ## Claim-side auxiliary definitions and concrete scenarios -/

/-- The tail a non-empty accumulator receives in the Claude system fold:
each remaining content with a blank-line separator in front. -/
def sepTail : List String → String
  | [] => ""
  | c :: rest => "\n\n" ++ c ++ sepTail rest

/-- The text before the first comma of a character list. -/
def beforeFirstCommaChars : List Char → List Char
  | [] => []
  | c :: rest => if c = ',' then [] else c :: beforeFirstCommaChars rest

/-- The claim-side header of a data URL: the text before the first comma. -/
def beforeFirstComma (s : String) : String :=
  String.mk (beforeFirstCommaChars s.toList)

/-- Written from the spec's words (4.3, system-prompt composition): the
composed system message is prepended exactly when its trimmed content is
non-blank and the list is empty or does not start with a system message. -/
def specPrepareMessages (t : String → String) (systemPromptRaw : Option String)
    (userLanguage : String) (webpages : Option (List Page))
    (messages : List InputMsg) : List Msg :=
  let c := composeSystemContent t systemPromptRaw userLanguage webpages
  let stripped := messages.map stripMsg
  if jsTrim c = "" then stripped
  else
    match stripped with
    | [] => [{ role := "system", content := .str c }]
    | m :: rest =>
      if m.role = "system" then m :: rest
      else { role := "system", content := .str c } :: m :: rest

/-- An openai-format record carrying only a content delta. -/
def openaiContentRecord (s : String) : ParsedRecord :=
  { choicesDeltaContent := some s, choicesDeltaReasoning := none,
    candidatesParts := none, ptype := none, deltaText := none,
    deltaStopReason := false }

/-- A data line with a content-only openai delta arriving at a clock time. -/
def contentLine (time : Nat) (s : String) : StreamEvent :=
  .line time (.dataLine (.record (openaiContentRecord s)))

/-- The stream configuration of the guard scenario: openai channel, store
and UI present, guard enabled with the configured prefix list `["think"]`. -/
def guardCfg : StreamConfig :=
  { apiFormat := "openai", chatPresent := true,
    detectMisfiledThinkSilently := true,
    misfiledMarkers := computeMisfiledMarkers
      { detectMisfiledThinkSilently := true,
        misfiledThinkSilentlyMarker := none,
        misfiledThinkSilentlyMarkers := some ["think"] } }

/-- A plain openai stream configuration with the guard disabled. -/
def plainCfg : StreamConfig :=
  { apiFormat := "openai", chatPresent := true,
    detectMisfiledThinkSilently := false, misfiledMarkers := [] }

/-- The state reached after one immediately-flushed `"Hi"` delta at time
200, used to witness the final-flush theorem. -/
def hiState : StreamState :=
  { currentMessage := { content := "Hi", reasoning_content := "" },
    lastUpdateTime := 200,
    updateTimeoutPending := false,
    didDispatchAnyUpdate := true,
    dispatched := [{ content := "Hi", reasoning_content := "" }] }

/-! ## Shared characterization lemmas -/

theorem convertToGeminiFormatLoop_contents (msgs : List Msg) :
    ∀ acc si, (convertToGeminiFormatLoop msgs acc si).contents =
      acc ++ geminiSpecContents msgs := by
  induction msgs with
  | nil => intro acc si; simp [convertToGeminiFormatLoop, geminiSpecContents]
  | cons m rest ih =>
    intro acc si
    by_cases h : m.role = "system"
    · simp [convertToGeminiFormatLoop, geminiSpecContents, h, ih]
    · by_cases hp : (geminiContentParts m.content).length > 0
      · have hne : (geminiContentParts m.content).isEmpty = false := by
          simp [List.isEmpty_eq_false]
          intro hnil
          rw [hnil] at hp
          simp at hp
        simp [convertToGeminiFormatLoop, geminiSpecContents, h, hp, hne, ih]
      · have hnil : geminiContentParts m.content = [] := by
          rcases List.eq_nil_or_concat (geminiContentParts m.content) with h0 | ⟨l2, a, h0⟩
          · exact h0
          · exfalso; apply hp; rw [h0]; simp
        simp [convertToGeminiFormatLoop, geminiSpecContents, h, hp, hnil, ih]

theorem convertToGeminiFormatLoop_sysInstr (msgs : List Msg) :
    ∀ acc si, (convertToGeminiFormatLoop msgs acc si).systemInstruction =
      match lastSystemText msgs with
      | some s => some { parts := [.text s] }
      | none => si := by
  induction msgs with
  | nil => intro acc si; simp [convertToGeminiFormatLoop, lastSystemText]
  | cons m rest ih =>
    intro acc si
    simp only [convertToGeminiFormatLoop, lastSystemText]
    by_cases h : m.role = "system"
    · rw [if_pos h, ih]
      cases lastSystemText rest <;> simp [h]
    · rw [if_neg h]
      by_cases hp : (geminiContentParts m.content).length > 0
      · rw [if_pos hp, ih]
        cases lastSystemText rest <;> simp [h]
      · rw [if_neg hp, ih]
        cases lastSystemText rest <;> simp [h]

theorem convertToClaudeFormatLoop_messages (msgs : List Msg) :
    ∀ acc system, (convertToClaudeFormatLoop msgs acc system).messages =
      acc ++ claudeSpecMessages msgs := by
  induction msgs with
  | nil => intro acc system; simp [convertToClaudeFormatLoop, claudeSpecMessages]
  | cons m rest ih =>
    intro acc system
    by_cases h : m.role = "system"
    · simp [convertToClaudeFormatLoop, claudeSpecMessages, h, ih]
    · by_cases hp : (claudeContentParts m.content).length > 0
      · have hne : (claudeContentParts m.content).isEmpty = false := by
          simp only [List.isEmpty_eq_false]
          intro hnil; rw [hnil] at hp; simp at hp
        simp [convertToClaudeFormatLoop, claudeSpecMessages, h, hp, hne, ih]
      · have hnil : claudeContentParts m.content = [] := by
          rcases List.eq_nil_or_concat (claudeContentParts m.content) with h0 | ⟨l2, a, h0⟩
          · exact h0
          · exfalso; apply hp; rw [h0]; simp
        simp [convertToClaudeFormatLoop, claudeSpecMessages, h, hp, hnil, ih]

theorem convertToClaudeFormatLoop_system (msgs : List Msg) :
    ∀ acc system, (convertToClaudeFormatLoop msgs acc system).system =
      claudeSystemFold system (systemTexts msgs) := by
  induction msgs with
  | nil => intro acc system; simp [convertToClaudeFormatLoop, systemTexts, claudeSystemFold]
  | cons m rest ih =>
    intro acc system
    by_cases h : m.role = "system"
    · simp [convertToClaudeFormatLoop, systemTexts, claudeSystemFold, h, ih]
    · by_cases hp : (claudeContentParts m.content).length > 0
      · simp [convertToClaudeFormatLoop, systemTexts, h, hp, ih]
      · simp [convertToClaudeFormatLoop, systemTexts, h, hp, ih]

theorem append_ne_empty_left {s : String} (t : String) (h : s ≠ "") : s ++ t ≠ "" := by
  intro heq
  apply h
  apply String.ext
  have hd := congrArg String.data heq
  simp only [String.data_append] at hd
  exact (List.append_eq_nil.mp hd).1

theorem claudeSystemFold_ne (cs : List String) :
    ∀ s : String, s ≠ "" → claudeSystemFold s cs = s ++ sepTail cs := by
  induction cs with
  | nil => intro s h; simp [claudeSystemFold, sepTail]
  | cons c rest ih =>
    intro s h
    simp only [claudeSystemFold, sepTail]
    rw [if_pos h]
    rw [ih _ (append_ne_empty_left _ (append_ne_empty_left _ h))]
    simp [String.append_assoc]

theorem sepTail_joinSep (cs : List String) :
    ∀ c, c ++ sepTail cs = joinSep "\n\n" (c :: cs) := by
  induction cs with
  | nil => intro c; simp [sepTail, joinSep]
  | cons d rest ih =>
    intro c
    simp only [sepTail, joinSep]
    rw [← ih d]
    simp [String.append_assoc]

theorem claudeSystemFold_empty (cs : List String) :
    claudeSystemFold "" cs = joinSep "\n\n" (cs.dropWhile (fun s => s == "")) := by
  induction cs with
  | nil => simp [claudeSystemFold, joinSep, List.dropWhile]
  | cons c rest ih =>
    by_cases h : c = ""
    · subst h
      simp only [claudeSystemFold]
      have h0 : ("" : String) ++ (if ("" : String) ≠ "" then "\n\n" else "") ++ "" = "" := by
        simp
      rw [h0, ih]
      simp [List.dropWhile_cons]
    · simp only [claudeSystemFold]
      have h0 : ("" : String) ++ (if ("" : String) ≠ "" then "\n\n" else "") ++ c = c := by
        simp
      rw [h0, claudeSystemFold_ne rest c h, sepTail_joinSep]
      have hdw : (c :: rest).dropWhile (fun s => s == "") = c :: rest := by
        simp [List.dropWhile_cons, h]
      rw [hdw]

theorem splitCommaChars_ne_nil (l : List Char) : splitCommaChars l ≠ [] := by
  cases l with
  | nil => simp [splitCommaChars]
  | cons c rest =>
    simp only [splitCommaChars]
    by_cases h : c = ','
    · simp [h]
    · cases hr : splitCommaChars rest <;> simp [h, hr]

theorem splitCommaChars_head (l : List Char) :
    (splitCommaChars l).headD [] = beforeFirstCommaChars l := by
  induction l with
  | nil => simp [splitCommaChars, beforeFirstCommaChars]
  | cons c rest ih =>
    simp only [splitCommaChars, beforeFirstCommaChars]
    by_cases h : c = ','
    · simp [h]
    · cases hr : splitCommaChars rest with
      | nil => exact absurd hr (splitCommaChars_ne_nil rest)
      | cons s ss =>
        rw [hr] at ih
        simp only [List.headD_cons] at ih
        simp [h, hr, ih]

theorem dataUrlHeader_eq_beforeFirstComma (s : String) :
    dataUrlHeader s = beforeFirstComma s := by
  unfold dataUrlHeader beforeFirstComma jsSplitComma
  cases hr : splitCommaChars s.toList with
  | nil => exact absurd hr (splitCommaChars_ne_nil _)
  | cons a as =>
    have hh := splitCommaChars_head s.toList
    rw [hr] at hh
    simp only [List.headD_cons] at hh
    simp only [List.map_cons, List.headD_cons]
    rw [← hh]

theorem startsWith_data_not_empty (url : String) (h : jsStartsWith url "data:" = true) :
    url.isEmpty = false := by
  cases he : url.isEmpty with
  | false => rfl
  | true =>
    exfalso
    have hu : url = "" := (String.isEmpty_iff url).mp he
    rw [hu] at h
    exact absurd h (by decide)

theorem jsGetSubstitution_no_dollar (matched before after : List Char) :
    ∀ rep : List Char, '$' ∉ rep → jsGetSubstitution matched before after rep = rep := by
  intro rep
  induction rep with
  | nil => intro _; rfl
  | cons c rest ih =>
    intro h
    have hc : c ≠ '$' := by
      intro e; exact h (e ▸ List.mem_cons_self c rest)
    have hrest : '$' ∉ rest := fun hm => h (List.mem_cons_of_mem _ hm)
    cases rest with
    | nil => simp [jsGetSubstitution]
    | cons d rest2 =>
      simp only [jsGetSubstitution]
      rw [if_neg hc, ih hrest]

theorem jsReplaceScan_no_dollar (pat rep : List Char) (h : '$' ∉ rep) :
    ∀ (fuel : Nat) (before s : List Char),
      jsReplaceScan pat rep fuel before s = literalReplaceScan pat rep fuel s := by
  intro fuel
  induction fuel with
  | zero => intro before s; rfl
  | succ n ih =>
    intro before s
    cases s with
    | nil => rfl
    | cons c rest =>
      simp only [jsReplaceScan, literalReplaceScan]
      cases hb : pat.isPrefixOf (c :: rest) with
      | false => simp [hb, ih]
      | true =>
        simp only [hb, if_true]
        rw [jsGetSubstitution_no_dollar _ _ _ _ h, ih]

theorem jsReplace_no_dollar (s lang : String) (h : '$' ∉ lang.toList) :
    jsReplaceUserLanguage s lang = literalReplaceUserLanguage s lang :=
  congrArg String.mk (jsReplaceScan_no_dollar _ _ h _ _ _)

theorem specResolveProfile_mem (url : String) (ef : Option String) :
    specResolveProfile url ef = "openai" ∨ specResolveProfile url ef = "gemini" ∨
      specResolveProfile url ef = "claude" := by
  cases ef with
  | none =>
    simp only [specResolveProfile]
    split_ifs <;> simp
  | some f =>
    simp only [specResolveProfile]
    split_ifs with h0
    · exact h0
    all_goals simp

theorem detectApiFormat_eq_spec (url : String) (ef : Option String) :
    detectApiFormat url ef = specResolveProfile url ef := by
  cases ef with
  | none => rfl
  | some f =>
    by_cases h1 : f = "openai"
    · subst h1; rfl
    · by_cases h2 : f = "gemini"
      · subst h2; rfl
      · by_cases h3 : f = "claude"
        · subst h3; rfl
        · have hc : (["openai", "gemini", "claude"] : List String).contains f = false := by
            simp [List.contains, h1, h2, h3]
          have hns : ¬(f = "openai" ∨ f = "gemini" ∨ f = "claude") := by tauto
          simp only [detectApiFormat, specResolveProfile, hc, Bool.and_false]
          rw [if_neg hns]
          simp
          intro _hT hor
          exact absurd hor hns

/-! ## The claims -/

/-- C1: with the guard enabled, prefix list `["think"]`, the openai delta
channel and no reasoning content, the deltas `"t"`, `"hi"`, `"nk is wrong"`
abort the stream with the guard error and zero dispatched updates; while
the accumulated normalized content is still a strict prefix of `"think"`
(after `"t"` and `"hi"`), the delta is suppressed: no dispatch, no error,
no scheduled flush. -/
theorem C1_guard_scenario :
    computeMisfiledMarkers
        { detectMisfiledThinkSilently := true, misfiledThinkSilentlyMarker := none,
          misfiledThinkSilentlyMarkers := some ["think"] } = ["think"] ∧
    runEvents guardCfg [contentLine 10 "t", contentLine 20 "hi"] initState =
      ({ currentMessage := { content := "thi", reasoning_content := "" },
         lastUpdateTime := 0, updateTimeoutPending := false,
         didDispatchAnyUpdate := false, dispatched := [] }, false) ∧
    processStream guardCfg
        (.chunks [contentLine 10 "t", contentLine 20 "hi", contentLine 30 "nk is wrong"] 40) =
      (.guardAborted, []) := by
  refine ⟨by decide, by decide, by decide⟩

/-- C2 counterexample: when the stream ends within the same clock
millisecond as the last flush, the pending update is not force-flushed
before the final accumulator is returned: the final content
`"Hello world"` is returned but only the `"Hello"` snapshot was ever
dispatched. -/
theorem C2_counterexample_same_instant :
    processStream plainCfg
        (.chunks [contentLine 200 "Hello", contentLine 200 " world"] 200) =
      (.result { content := "Hello world", reasoning_content := "" },
        [{ content := "Hello", reasoning_content := "" }]) ∧
    ({ content := "Hello world", reasoning_content := "" } : AccMsg) ∉
      [({ content := "Hello", reasoning_content := "" } : AccMsg)] := by
  refine ⟨by decide, by decide⟩

/-- C2 amended: for every stream that reaches end-of-stream normally, if
strictly positive clock time has elapsed since the previous flush
(`Date.now() - lastUpdateTime > 0`), the accumulated update is
force-flushed before the final accumulator is returned, so the final
content is delivered to the store/UI even when the last delta arrived
within the 100-unit throttle window of the previous flush. -/
theorem C2_final_flush_amended (cfg : StreamConfig) (evs : List StreamEvent)
    (st : StreamState) (tdone : Nat)
    (hchat : cfg.chatPresent = true)
    (hrun : runEvents cfg evs initState = (st, false))
    (hlt : st.lastUpdateTime < tdone) :
    processStream cfg (.chunks evs tdone) =
      (.result st.currentMessage, st.dispatched ++ [st.currentMessage]) := by
  simp only [processStream, hrun]
  have hpos : tdone - st.lastUpdateTime > 0 := Nat.sub_pos_of_lt hlt
  simp [finishStream, hpos, dispatchUpdate, hchat]

/-- C2 witness: a concrete run in which the second delta arrived within
the throttle window and the force-flush delivers the final content. -/
theorem C2_final_flush_witness :
    (plainCfg.chatPresent = true ∧
     runEvents plainCfg [contentLine 200 "Hi", contentLine 250 " there"] initState =
       ({ currentMessage := { content := "Hi there", reasoning_content := "" },
          lastUpdateTime := 200, updateTimeoutPending := true,
          didDispatchAnyUpdate := true,
          dispatched := [{ content := "Hi", reasoning_content := "" }] }, false) ∧
     (200 : Nat) < 260) ∧
    processStream plainCfg (.chunks [contentLine 200 "Hi", contentLine 250 " there"] 260) =
      (.result { content := "Hi there", reasoning_content := "" },
        [{ content := "Hi", reasoning_content := "" },
         { content := "Hi there", reasoning_content := "" }]) :=
  ⟨⟨by decide, by decide, by decide⟩,
    C2_final_flush_amended plainCfg [contentLine 200 "Hi", contentLine 250 " there"]
      { currentMessage := { content := "Hi there", reasoning_content := "" },
        lastUpdateTime := 200, updateTimeoutPending := true,
        didDispatchAnyUpdate := true,
        dispatched := [{ content := "Hi", reasoning_content := "" }] }
      260 (by decide) (by decide) (by decide)⟩

/-- C3: a malformed SSE data line is skipped with the state unchanged and
the stream continues with the remaining events, while a guard error
raised while processing a data line is rethrown by the parse-error
handler and propagates out of the read loop. -/
theorem C3_parse_error_vs_guard :
    (∀ (cfg : StreamConfig) (now : Nat) (st : StreamState),
       tryProcessData cfg now .parseFail st = .thrown .parseError st) ∧
    (∀ (cfg : StreamConfig) (now : Nat) (rest : List StreamEvent) (st : StreamState),
       runEvents cfg (.line now (.dataLine .parseFail) :: rest) st = runEvents cfg rest st) ∧
    (∀ (cfg : StreamConfig) (now : Nat) (d : SSEData) (st st1 : StreamState)
       (rest : List StreamEvent),
       tryProcessData cfg now d st = .thrown .guardError st1 →
       runEvents cfg (.line now (.dataLine d) :: rest) st = (st1, true)) := by
  refine ⟨fun _ _ _ => rfl, ?_, ?_⟩
  · intro cfg now rest st
    simp [runEvents, processEvent, processLine, tryProcessData]
  · intro cfg now d st st1 rest h
    simp [runEvents, processEvent, processLine, h]

/-- C3 witness: the guard error raised by a `"think"` content delta
propagates out of the loop with zero dispatched updates. -/
theorem C3_guard_propagation_witness :
    tryProcessData guardCfg 10 (.record (openaiContentRecord "think")) initState =
      .thrown .guardError
        { currentMessage := { content := "think", reasoning_content := "" },
          lastUpdateTime := 0, updateTimeoutPending := false,
          didDispatchAnyUpdate := false, dispatched := [] } ∧
    runEvents guardCfg [.line 10 (.dataLine (.record (openaiContentRecord "think")))] initState =
      ({ currentMessage := { content := "think", reasoning_content := "" },
         lastUpdateTime := 0, updateTimeoutPending := false,
         didDispatchAnyUpdate := false, dispatched := [] }, true) :=
  ⟨by decide,
    C3_parse_error_vs_guard.2.2 guardCfg 10 (.record (openaiContentRecord "think"))
      initState
      { currentMessage := { content := "think", reasoning_content := "" },
        lastUpdateTime := 0, updateTimeoutPending := false,
        didDispatchAnyUpdate := false, dispatched := [] }
      [] (by decide)⟩

/-- C4: profile resolution is total and deterministic: an explicit format
among the three known values is returned verbatim, the result is always
one of `openai`, `gemini`, `claude`, and the function agrees everywhere
with the resolver written from the spec's words (gemini substrings, then
claude substrings, else openai). -/
theorem C4_profile_resolution :
    (∀ url : String,
       detectApiFormat url (some "openai") = "openai" ∧
       detectApiFormat url (some "gemini") = "gemini" ∧
       detectApiFormat url (some "claude") = "claude") ∧
    (∀ (url : String) (ef : Option String),
       detectApiFormat url ef = "openai" ∨ detectApiFormat url ef = "gemini" ∨
         detectApiFormat url ef = "claude") ∧
    (∀ (url : String) (ef : Option String),
       detectApiFormat url ef = specResolveProfile url ef) := by
  refine ⟨fun url => ⟨rfl, rfl, rfl⟩, ?_, detectApiFormat_eq_spec⟩
  intro url ef
  rw [detectApiFormat_eq_spec]
  exact specResolveProfile_mem url ef

/-- C5: the Gemini translator removes system-role messages from the turn
sequence and places their content into the separate `systemInstruction`,
renames `assistant` to `model` and every other non-system role to `user`,
maps string content to a single text part, and drops any message whose
conversion yields zero parts (the characterization `geminiSpecContents`
states exactly this shape). -/
theorem C5_gemini_translation :
    (∀ messages : List Msg,
       (convertToGeminiFormat messages).contents = geminiSpecContents messages) ∧
    (∀ s : String, geminiContentParts (.str s) = [.text s]) ∧
    (∀ messages : List Msg,
       (convertToGeminiFormat messages).systemInstruction =
         (lastSystemText messages).map fun s => { parts := [.text s] }) := by
  refine ⟨?_, fun s => rfl, ?_⟩
  · intro messages
    rw [convertToGeminiFormat, convertToGeminiFormatLoop_contents]
    simp
  · intro messages
    rw [convertToGeminiFormat, convertToGeminiFormatLoop_sysInstr]
    cases lastSystemText messages <;> simp

/-- C6 counterexample: the Claude translator does not blank-line-separate
the contents of all system messages: a leading system message with empty
content contributes no separator, so `["", "b"]` folds to `"b"`, not to
the blank-line-separated concatenation `"\n\nb"`. -/
theorem C6_counterexample_leading_empty :
    (convertToClaudeFormat [⟨"system", .str ""⟩, ⟨"system", .str "b"⟩]).system = "b" ∧
    joinSep "\n\n" (systemTexts [⟨"system", .str ""⟩, ⟨"system", .str "b"⟩]) = "\n\nb" ∧
    ("b" : String) ≠ "\n\nb" := by
  refine ⟨by decide, by decide, by decide⟩

/-- C6 amended: the Claude translator folds the system-role contents in
encounter order inserting a blank-line separator only when the
accumulated system string is non-empty — equivalently, the blank-line
join of the system contents after leading empty ones are dropped; every
other message keeps its original role, its content converted to typed
parts, and is dropped when the conversion yields empty content; a system
message `"Be terse"` plus one user message yields exactly the claimed
request. -/
theorem C6_claude_translation_amended :
    (∀ messages : List Msg,
       (convertToClaudeFormat messages).system =
         joinSep "\n\n" ((systemTexts messages).dropWhile (fun s => s == ""))) ∧
    (∀ messages : List Msg,
       (convertToClaudeFormat messages).messages = claudeSpecMessages messages) ∧
    convertToClaudeFormat [⟨"system", .str "Be terse"⟩, ⟨"user", .str "hi"⟩] =
      { messages := [{ role := "user", content := [.text "hi"] }],
        system := "Be terse" } := by
  refine ⟨?_, ?_, by decide⟩
  · intro messages
    rw [convertToClaudeFormat, convertToClaudeFormatLoop_system, claudeSystemFold_empty]
  · intro messages
    rw [convertToClaudeFormat, convertToClaudeFormatLoop_messages]
    simp

/-- C7 counterexample: an image data URL whose payload contains a comma is
not split on the first comma into header and payload: the emitted data is
only the field between the first and second comma (`"AA"`), not
everything after the first comma (`"AA,BB"`), in both converters. -/
theorem C7_counterexample_second_comma :
    geminiItemParts (.image (some "data:image/png;base64,AA,BB")) =
      [.inlineData "image/png" (some "AA")] ∧
    claudeItemParts (.image (some "data:image/png;base64,AA,BB")) =
      [.image "image/png" (some "AA")] ∧
    (convertToGeminiFormat
        [⟨"user", .arr [.image (some "data:image/png;base64,AA,BB")]⟩]).contents =
      [{ role := "user", parts := [.inlineData "image/png" (some "AA")] }] ∧
    afterFirstComma "data:image/png;base64,AA,BB" = "AA,BB" ∧
    some ("AA" : String) ≠ some "AA,BB" := by
  refine ⟨by decide, by decide, by decide, by decide, by decide⟩

/-- C7 amended: in both multimodal converters an image item whose URL
starts with `data:` is split on commas, the header being the segment
before the first comma and the payload the field between the first and
second comma (the whole remainder when no second comma exists, absent
when there is no comma); the mime type is extracted by pattern match on
the header, defaulting to `image/png` when the pattern does not match,
and emitted as inline base64 data; an image item whose URL does not start
with `data:` is silently skipped in both converters. -/
theorem C7_data_uri_amended :
    (∀ s : String, dataUrlHeader s = beforeFirstComma s) ∧
    (∀ url : String, jsStartsWith url "data:" = true →
       geminiItemParts (.image (some url)) =
           [.inlineData (extractMimeType (dataUrlHeader url)) (dataUrlPayload url)] ∧
         claudeItemParts (.image (some url)) =
           [.image (extractMimeType (dataUrlHeader url)) (dataUrlPayload url)]) ∧
    (∀ url : String, jsStartsWith url "data:" = false →
       geminiItemParts (.image (some url)) = [] ∧
         claudeItemParts (.image (some url)) = []) ∧
    (∀ header : String,
       findDataMime header.toList = none → extractMimeType header = "image/png") := by
  refine ⟨dataUrlHeader_eq_beforeFirstComma, ?_, ?_, ?_⟩
  · intro url h
    have hne : url.isEmpty = false := startsWith_data_not_empty url h
    constructor <;> simp [geminiItemParts, claudeItemParts, jsTruthy, hne, h]
  · intro url h
    cases he : url.isEmpty with
    | true => constructor <;> simp [geminiItemParts, claudeItemParts, jsTruthy, he]
    | false => constructor <;> simp [geminiItemParts, claudeItemParts, jsTruthy, he, h]
  · intro header h
    unfold extractMimeType
    rw [h]

/-- C7 witness: the amended statement evaluated at a data URL with one
comma, a data URL without mime type, and a plain https URL. -/
theorem C7_data_uri_witness :
    (jsStartsWith "data:image/jpeg;base64,Zm9v" "data:" = true ∧
     geminiItemParts (.image (some "data:image/jpeg;base64,Zm9v")) =
       [.inlineData "image/jpeg" (some "Zm9v")]) ∧
    (jsStartsWith "https://example.com/cat.png" "data:" = false ∧
     geminiItemParts (.image (some "https://example.com/cat.png")) = [] ∧
     claudeItemParts (.image (some "https://example.com/cat.png")) = []) ∧
    (dataUrlHeader "data:,AAA" = "data:" ∧
     findDataMime ("data:" : String).toList = none ∧
     extractMimeType "data:" = "image/png") :=
  ⟨⟨by decide,
     by
       have h := (C7_data_uri_amended.2.1 "data:image/jpeg;base64,Zm9v" (by decide)).1
       rw [h]; decide⟩,
   ⟨by decide,
     (C7_data_uri_amended.2.2.1 "https://example.com/cat.png" (by decide)).1,
     (C7_data_uri_amended.2.2.1 "https://example.com/cat.png" (by decide)).2⟩,
   ⟨by decide, by decide, C7_data_uri_amended.2.2.2 "data:" (by decide)⟩⟩

/-- C8 counterexample: the user-language substitution is a JavaScript
`replace`, which interprets `$`-escapes in the replacement: with the
language tag `"$&"` each placeholder occurrence is replaced by the
matched placeholder itself, not by the tag, so the composed system
content is not the prompt with every occurrence replaced by the tag. -/
theorem C8_counterexample_dollar_escape :
    jsReplaceUserLanguage "Reply in \x7b\x7buserLanguage\x7d\x7d." "$&" =
      "Reply in \x7b\x7buserLanguage\x7d\x7d." ∧
    literalReplaceUserLanguage "Reply in \x7b\x7buserLanguage\x7d\x7d." "$&" =
      "Reply in $&." ∧
    composeSystemContent (fun k => k) (some "Reply in \x7b\x7buserLanguage\x7d\x7d.") "$&" none =
      "Reply in \x7b\x7buserLanguage\x7d\x7d." ∧
    ("Reply in \x7b\x7buserLanguage\x7d\x7d." : String) ≠ "Reply in $&." := by
  refine ⟨by decide, by decide, by decide, by decide⟩

/-- C8 amended: for a language tag containing no `$` the composed system
prompt has every occurrence of the placeholder replaced by the tag
verbatim, and the composed system message is prepended to the processed
message list precisely when its trimmed content is non-blank and the list
is empty or does not already start with a system message
(`specPrepareMessages` states exactly that rule). -/
theorem C8_system_message_amended :
    (∀ s lang : String, '$' ∉ lang.toList →
       jsReplaceUserLanguage s lang = literalReplaceUserLanguage s lang) ∧
    (∀ (t : String → String) (systemPromptRaw : Option String) (userLanguage : String)
       (webpages : Option (List Page)) (messages : List InputMsg),
       prepareMessages t systemPromptRaw userLanguage webpages messages =
         specPrepareMessages t systemPromptRaw userLanguage webpages messages) := by
  refine ⟨fun s lang h => jsReplace_no_dollar s lang h, ?_⟩
  intro t systemPromptRaw userLanguage webpages messages
  simp only [prepareMessages, specPrepareMessages]
  by_cases hc : jsTrim (composeSystemContent t systemPromptRaw userLanguage webpages) = ""
  · simp [hc]
  · cases hm : messages.map stripMsg with
    | nil => simp [hc, hm]
    | cons m rest =>
      by_cases hr : m.role = "system"
      · simp [hc, hm, hr]
      · simp [hc, hm, hr]

/-- C8 witness: the amended statement evaluated at a dollar-free language
tag and at a concrete message list. -/
theorem C8_system_message_witness :
    ('$' ∉ ("en-US" : String).toList ∧
     jsReplaceUserLanguage "Use \x7b\x7buserLanguage\x7d\x7d now" "en-US" =
       literalReplaceUserLanguage "Use \x7b\x7buserLanguage\x7d\x7d now" "en-US") ∧
    jsReplaceUserLanguage "Use \x7b\x7buserLanguage\x7d\x7d now" "en-US" = "Use en-US now" ∧
    prepareMessages (fun k => k) (some "Be brief.") "en-US" none
        [{ role := "user", content := .str "hi", reasoning_content := some "r",
           updating := true }] =
      [{ role := "system", content := .str "Be brief." },
       { role := "user", content := .str "hi" }] :=
  ⟨⟨by decide,
     C8_system_message_amended.1 "Use \x7b\x7buserLanguage\x7d\x7d now" "en-US" (by decide)⟩,
   by decide, by decide⟩

/-- C9: when cancellation fires the call resolves with no result rather
than rejecting — in particular cancellation before the first byte yields
a resolved call with no value and no dispatcher invocation — while a
guard abort surfaces as the distinguishable rejected error, for
cancellation after any events as well. -/
theorem C9_cancellation_resolves :
    (∀ (cfg : StreamConfig) (evs : List StreamEvent) (st : StreamState),
       runEvents cfg evs initState = (st, false) →
       processStream cfg (.abortedAfter evs) = (.cancelled, st.dispatched)) ∧
    (∀ cfg : StreamConfig, processStream cfg (.abortedAfter []) = (.cancelled, [])) ∧
    (∀ (cfg : StreamConfig) (evs : List StreamEvent) (st : StreamState),
       runEvents cfg evs initState = (st, true) →
       processStream cfg (.abortedAfter evs) = (.guardAborted, st.dispatched)) := by
  refine ⟨?_, ?_, ?_⟩
  · intro cfg evs st h; simp [processStream, h]
  · intro cfg; simp [processStream, runEvents, initState]
  · intro cfg evs st h; simp [processStream, h]

/-- C9 witness: cancellation before the first byte and cancellation after
two suppressed guard deltas both resolve with no dispatches; a guard trip
before cancellation surfaces as the rejected guard error. -/
theorem C9_cancellation_witness :
    processStream plainCfg (.abortedAfter []) = (.cancelled, []) ∧
    (runEvents guardCfg [contentLine 10 "t", contentLine 20 "hi"] initState =
       ({ currentMessage := { content := "thi", reasoning_content := "" },
          lastUpdateTime := 0, updateTimeoutPending := false,
          didDispatchAnyUpdate := false, dispatched := [] }, false) ∧
     processStream guardCfg (.abortedAfter [contentLine 10 "t", contentLine 20 "hi"]) =
       (.cancelled, [])) :=
  ⟨C9_cancellation_resolves.2.1 plainCfg,
   ⟨by decide,
    C9_cancellation_resolves.1 guardCfg [contentLine 10 "t", contentLine 20 "hi"]
      { currentMessage := { content := "thi", reasoning_content := "" },
        lastUpdateTime := 0, updateTimeoutPending := false,
        didDispatchAnyUpdate := false, dispatched := [] } (by decide)⟩⟩

/-- C10: when the input list contains more than one system-role message,
the Gemini translator keeps only the last one in `systemInstruction` —
each later system message overwrites the previous one — while every
system message is removed from the turn sequence; concretely, two system
messages `"first"` and `"second"` leave only `"second"`. -/
theorem C10_last_system_wins :
    (∀ messages : List Msg,
       (convertToGeminiFormat messages).systemInstruction =
         (lastSystemText messages).map fun s => { parts := [.text s] }) ∧
    (∀ messages : List Msg,
       (convertToGeminiFormat messages).contents = geminiSpecContents messages) ∧
    convertToGeminiFormat
        [⟨"system", .str "first"⟩, ⟨"system", .str "second"⟩, ⟨"user", .str "hi"⟩] =
      { contents := [{ role := "user", parts := [.text "hi"] }],
        systemInstruction := some { parts := [.text "second"] } } := by
  refine ⟨?_, ?_, by decide⟩
  · intro messages
    rw [convertToGeminiFormat, convertToGeminiFormatLoop_sysInstr]
    cases lastSystemText messages <;> simp
  · intro messages
    rw [convertToGeminiFormat, convertToGeminiFormatLoop_contents]
    simp
